import Mathlib

/-!
Verification development for the `rtt` repository (semantic video search).

Shallow embedding notes:
* numpy arrays of floats are modelled as lists of rationals (`Vec`); arithmetic
  is exact.  The one floating-point effect a claim depends on, the conversion
  of the stored embedding matrix to half precision, is modelled exactly by
  `roundF16` (round to nearest, ties to even, over the float16 grid).
* L2 normalisation divides by a square root; the model performs it exactly
  whenever the norm is rational (`ratSqrt`), which covers every concrete
  input used below.  For irrational norms the division is omitted, which
  multiplies all scores of a query by one positive constant and therefore
  changes neither the mask, the ranking, the truncation nor the returned rows.
* `random.shuffle` in `Database._ensure_merged` is modelled by quantifying
  over an arbitrary permutation of the (table, chunk) pairs.
-/

namespace RTT

abbrev Vec := List ℚ

/-- Nearest integer to a rational, ties to even (IEEE rounding used by
`astype(np.float16)`). -/
def roundHalfEven (q : ℚ) : ℤ :=
  let f := ⌊q⌋
  let r := q - (f : ℚ)
  if r < 1/2 then f
  else if 1/2 < r then f + 1
  else if f % 2 = 0 then f else f + 1

def pow2 (e : ℤ) : ℚ := (2 : ℚ) ^ e

/-- Binary exponent used by float16 for a positive magnitude: the largest
`e ∈ [-14, 15]` with `2^e ≤ a`, and `-14` (the subnormal scale) when `a`
is below the normal range.  Magnitudes above the float16 range are rounded
on the top binade's grid; float16 overflow to infinity is not modelled
(no claim depends on it). -/
def f16Exp (a : ℚ) : ℤ :=
  match ((List.range 30).map (fun k => (15 : ℤ) - (k : ℤ))).find?
      (fun e => decide (pow2 e ≤ a)) with
  | some e => e
  | none => -14

/-- Exact model of rounding a rational to the float16 grid
(`astype(np.float16)`): scale into the binade so the mantissa has 10
fractional bits, round to nearest with ties to even, scale back. -/
def roundF16 (q : ℚ) : ℚ :=
  if q = 0 then 0
  else
    let a := |q|
    let e := f16Exp a
    let scale := pow2 (10 - e)
    let m := roundHalfEven (a * scale)
    (if q < 0 then (-1 : ℚ) else 1) * (m : ℚ) / scale

/-- Square of the euclidean norm of a vector (`np.linalg.norm(v) ** 2`),
rational and exact. -/
def vecNormSq (v : Vec) : ℚ := (v.map (fun x => x * x)).sum

/-- Dot product of two vectors. -/
def dot (a b : Vec) : ℚ := (List.zipWith (fun x y => x * y) a b).sum

/-- Fueled linear search for the integer square root (structural recursion so
that concrete instances reduce inside the kernel). -/
def isqrtGo (n : Nat) : Nat → Nat → Nat
  | 0, acc => acc
  | fuel + 1, acc => if (acc + 1) * (acc + 1) ≤ n then isqrtGo n fuel (acc + 1) else acc

def isqrt (n : Nat) : Nat := isqrtGo n n 0

/-- Exact square root of a nonnegative rational when it is rational. -/
def ratSqrt (q : ℚ) : Option ℚ :=
  if q < 0 then none
  else
    let n := q.num.toNat
    let d := q.den
    let sn := isqrt n
    let sd := isqrt d
    if sn * sn = n ∧ sd * sd = d then some ((sn : ℚ) / (sd : ℚ)) else none

/-- One row of `_ensure_merged`'s normalisation `emb32 /= norms` with
`norms = np.where(norms == 0, 1, norms)`: divide by the euclidean norm,
leaving zero rows unchanged.  Exact when the norm is rational; otherwise
the row is kept unscaled (see the module comment). -/
def normalizeRow (v : Vec) : Vec :=
  match ratSqrt (vecNormSq v) with
  | some r => if r = 0 then v else v.map (fun x => x / r)
  | none => v

/-- What `_ensure_merged` stores for one embedding row:
normalise in single precision (modelled exactly), then `astype(np.float16)`. -/
def storeNorm (v : Vec) : Vec := (normalizeRow v).map roundF16

/-- One metadata row of the index's pyarrow table: the columns built by
`Database.add` / written by `package.create`, minus the `text_embedding`
column which `add_table` strips off into the embedding matrix. -/
structure Row where
  segment_id : String
  video_id : String
  start_seconds : ℚ
  end_seconds : ℚ
  transcript_raw : String
  transcript_enriched : String
  frame_path : String
  has_speech : Bool
  source : String
  collection : String
deriving Repr, DecidableEq

/-- The merged state of `vector.Database`: `_merged` (metadata rows) paired
with `_embeddings` (the normalised half-precision matrix), row for row. -/
structure Merged where
  rows : List Row
  embs : List Vec
deriving Repr, DecidableEq

/-- The boolean OR of `pyarrow.compute.equal(col, c)` over `c ∈ collections`
(`Database.closest`, `list_segments`, `count`). -/
def colMask (C : List String) (r : Row) : Bool :=
  C.any (fun c => r.collection = c)

/-- Model of `q / np.linalg.norm(q)` in `closest`; exact when the norm is
rational, otherwise the (order-irrelevant) positive scaling is omitted. -/
def normalizeQuery (q : Vec) : Vec :=
  match ratSqrt (vecNormSq q) with
  | some r => if r = 0 then q else q.map (fun x => x / r)
  | none => q

/-- The score array of `closest` before masking: dot product of every stored
row against the normalised query (the 20000-row chunking of the matrix
product changes nothing about the resulting array and is not modelled). -/
def rawScores (m : Merged) (q : Vec) : List (Row × ℚ) :=
  (m.rows.zip m.embs).map (fun p => (p.1, dot p.2 q))

/-- Applying the collection mask: `scores[~filter_np] = -np.inf` when a
non-empty `collections` filter is given.  `-∞` is `(⊥ : WithBot ℚ)`. -/
def applyMask (C : List String) (l : List (Row × ℚ)) : List (Row × WithBot ℚ) :=
  if C.isEmpty then l.map (fun p => (p.1, (p.2 : WithBot ℚ)))
  else l.map (fun p =>
    if colMask C p.1 then (p.1, (p.2 : WithBot ℚ)) else (p.1, (⊥ : WithBot ℚ)))

/-- Descending-score order used to model `argsort(-scores)` /
`argpartition(-scores, n)` followed by the sort of the selected block. -/
def byScore (a b : Row × WithBot ℚ) : Prop := b.2 ≤ a.2

instance : DecidableRel byScore := fun a b => inferInstanceAs (Decidable (b.2 ≤ a.2))

instance : IsTotal (Row × WithBot ℚ) byScore := ⟨fun a b => le_total b.2 a.2⟩

instance : IsTrans (Row × WithBot ℚ) byScore := ⟨fun _ _ _ h1 h2 => le_trans h2 h1⟩

/-- `Database.closest` on a merged state (`None` when the index holds no
tables).  Mirrors `vector.py`: zero-norm query returns `[]`; scores are
dot products against the stored matrix; a non-empty filter sets excluded
rows to `-∞`; the top `min n len` indices are taken in descending score
order (`argpartition` + sort, modelled as a full descending sort followed
by `take`, identical up to the order of ties); the result loop breaks at
the first `-∞`.  Each returned row carries its score; the Python row's
`_distance` is `1 - score`, strictly decreasing in the score. -/
def closest (mq : Option Merged) (q : Vec) (n : ℕ) (C : List String) :
    List (Row × ℚ) :=
  match mq with
  | none => []
  | some m =>
    if vecNormSq q = 0 then []
    else
      let qn := normalizeQuery q
      let scored := applyMask C (rawScores m qn)
      let nn := min n scored.length
      let ranked := (List.insertionSort byScore scored).take nn
      (ranked.takeWhile (fun p => decide (p.2 ≠ ⊥))).map
        (fun p => (p.1, p.2.unbot' 0))

/-- The filter step shared by `list_segments` and `count`
(`table.filter(mask)` when `collections` is non-empty). -/
def filterRows (rows : List Row) (C : List String) : List Row :=
  if C.isEmpty then rows else rows.filter (colMask C)

/-- `Database.list_segments`: filter, then `table.slice(offset, limit)`. -/
def listSegments (mq : Option Merged) (offset limit : ℕ) (C : List String) :
    List Row :=
  match mq with
  | none => []
  | some m => ((filterRows m.rows C).drop offset).take limit

/-- `Database.count`: filter, then `num_rows`. -/
def countSegments (mq : Option Merged) (C : List String) : ℕ :=
  match mq with
  | none => 0
  | some m => (filterRows m.rows C).length

/-- `Database.get_segment`: `pyarrow.compute.index` finds the first row whose
`segment_id` matches (−1, i.e. `none`, when absent); the row is returned
together with its row of the stored embedding matrix. -/
def getSegment (mq : Option Merged) (sid : String) : Option (Row × Vec) :=
  match mq with
  | none => none
  | some m =>
    match m.rows.findIdx? (fun r => r.segment_id = sid) with
    | none => none
    | some idx =>
      match m.rows[idx]?, m.embs[idx]? with
      | some r, some e => some (r, e)
      | _, _ => none

/-- Ascending `start_seconds` order of `pyarrow.compute.sort_indices`. -/
def byStart (a b : Row) : Prop := a.start_seconds ≤ b.start_seconds

instance : DecidableRel byStart := fun a b =>
  inferInstanceAs (Decidable (a.start_seconds ≤ b.start_seconds))

instance : IsTotal Row byStart := ⟨fun a b => le_total a.start_seconds b.start_seconds⟩

instance : IsTrans Row byStart := ⟨fun _ _ _ h1 h2 => le_trans h1 h2⟩

/-- `Database.video_segments`: filter on `video_id`, sort by `start_seconds`. -/
def videoSegments (mq : Option Merged) (vid : String) : List Row :=
  match mq with
  | none => []
  | some m =>
    let filtered := m.rows.filter (fun r => r.video_id = vid)
    if filtered.isEmpty then []
    else List.insertionSort byStart filtered

/-- An input pyarrow table as passed to `Database.add_table`: metadata rows
plus the `text_embedding` column, row for row. -/
structure Table where
  rows : List Row
  embs : List Vec
deriving Repr, DecidableEq

/-- The embedding chunk `add_table` stores:
`combine_chunks().values ... astype(np.float16).reshape(-1, 768)` — the
values rounded to half precision (the reshape only restores the row
structure that flattening removed and is the identity of this model). -/
def addChunk (t : Table) : List Vec := t.embs.map (fun v => v.map roundF16)

/-- The four fields of `vector.Database`. -/
structure Database where
  tables : List (List Row)
  chunks : List (List Vec)
  merged : Option (List Row)
  membs : Option (List Vec)
deriving Repr, DecidableEq

/-- `Database.memory()` / `__init__`. -/
def Database.empty : Database := ⟨[], [], none, none⟩

/-- `Database._invalidate`. -/
def invalidate (db : Database) : Database := { db with merged := none, membs := none }

/-- `Database.add_table`: tables of length 0 are ignored; otherwise the
embedding column is stripped into a half-precision chunk and the merged
state is invalidated. -/
def addTable (db : Database) (t : Table) : Database :=
  if t.rows.length = 0 then db
  else invalidate { db with tables := db.tables ++ [t.rows],
                            chunks := db.chunks ++ [addChunk t] }

/-- `Database._ensure_merged`, parametrised by the order `random.shuffle`
produced: the theorems below quantify `paired` over permutations of
`tables.zip chunks`.  When a merge exists it is returned untouched; with no
tables nothing happens; otherwise the shuffled tables and chunks are
concatenated and the embedding matrix is L2-normalised into half
precision. -/
def ensureMergedWith (db : Database) (paired : List (List Row × List Vec)) :
    Database :=
  match db.merged with
  | some _ => db
  | none =>
    if db.tables.isEmpty then db
    else { db with merged := some (paired.map Prod.fst).flatten,
                   membs := some (((paired.map Prod.snd).flatten).map storeNorm) }

/-- The merged state the read operations work on
(`_merged` with `_embeddings`). -/
def mergedView (db : Database) : Option Merged :=
  match db.merged, db.membs with
  | some r, some e => some ⟨r, e⟩
  | _, _ => none

/-- `Database.compact`: clear the per-archive lists, keep the merged state. -/
def compact (db : Database) : Database := { db with tables := [], chunks := [] }

/-- Shorthand for building concrete index rows in the witnesses below. -/
def mkRow (sid vid : String) (s e : ℚ) (col : String) : Row :=
  { segment_id := sid, video_id := vid, start_seconds := s, end_seconds := e,
    transcript_raw := "t", transcript_enriched := "t", frame_path := "",
    has_speech := true, source := "transcript", collection := col }

/-- Concrete two-row merged index used by witnesses. -/
def mW1 : Merged :=
  { rows := [mkRow "a1" "v1" 0 1 "pre", mkRow "b1" "v2" 0 1 "yt"],
    embs := [[1, 0], [0, 1]] }

/-- Concrete segment row for the `get_segment` exhibit. -/
def r9 : Row := mkRow "v1_00000" "v1" 0 2 ""

/-- A 768-wide embedding of euclidean norm 5 (not unit norm). -/
def emb9 : Vec := 3 :: 4 :: List.replicate 766 0

def tbl9 : Table := { rows := [r9], embs := [emb9] }

/-- The merged index after `add_table` of `tbl9` and `_ensure_merged`
(one table, so the shuffle permutation is unique). -/
def m9 : Option Merged :=
  mergedView (ensureMergedWith (addTable Database.empty tbl9) [([r9], addChunk tbl9)])

/-- The half-precision row `_ensure_merged` stores for `emb9`:
`[float16(3/5), float16(4/5), 0, ...]`. -/
def stored9 : Vec := (1229 / 2048 : ℚ) :: (819 / 1024 : ℚ) :: List.replicate 766 0

/-- Concrete row and unit-norm 768-wide embedding for the lifecycle claims. -/
def rX : Row := mkRow "x_00000" "x" 0 1 "old"

def embX : Vec := 1 :: List.replicate 767 0

def tblX : Table := { rows := [rX], embs := [embX] }

/-- A database that has been merged: one table `tblX`. -/
def dbX : Database :=
  ensureMergedWith (addTable Database.empty tblX) [([rX], addChunk tblX)]

/-- `dbX` after `compact()` and then `add_table` of an EMPTY table. -/
def dbXafter : Database := addTable (compact dbX) { rows := [], embs := [] }

/-- `dbX` after `compact()` and then `add_table tblX` (witness database). -/
def dbW10 : Database := addTable (compact (ensureMergedWith Database.empty [])) tblX

/-- One archive as the search service's boot loop sees it.  Modelled from the
spec: `package.load_metadata` is not part of `src/` (only `create` and `load`
are); per the spec's metadata-only read contract it yields the archive's
video header and the parquet table whose `text_embedding` column the boot
loop inspects.  An archive is summarised by its video id, its metadata rows
and its embedding column. -/
structure Archive where
  video_id : String
  rows : List Row
  embs : List Vec
deriving Repr, DecidableEq

/-- The width check in `create_app`: keep the archive iff every embedding has
length 768.  (This is the variable-width-list branch, the one taken for
tables `package.create` writes; the fixed-size-list branch compares the
type's `list_size` with 768 and agrees with this check on every non-empty
table of uniform width.) -/
def widthOK (a : Archive) : Bool := a.embs.all (fun v => v.length = 768)

/-- One iteration of `create_app`'s boot loop: a wrong-width archive is
logged and skipped; otherwise the video is registered and the table handed
to the index. -/
def bootStep (acc : Database × List String) (a : Archive) :
    Database × List String :=
  if widthOK a then (addTable acc.1 ⟨a.rows, a.embs⟩, acc.2 ++ [a.video_id])
  else acc

/-- The whole boot loop over the collected `.rtt` files: the index and the
list of registered video ids. -/
def bootLoad (archives : List Archive) : Database × List String :=
  archives.foldl bootStep (Database.empty, [])

/-- A width-768 archive and a width-512 archive for the boot witness. -/
def archGood : Archive :=
  { video_id := "good", rows := [mkRow "good_00000" "good" 0 1 "pre"],
    embs := [List.replicate 768 1] }

def archBad : Archive :=
  { video_id := "bad", rows := [mkRow "bad_00000" "bad" 0 1 "pre"],
    embs := [List.replicate 512 1] }

/-- `types.Segment`.  The fields down to `source` are the dataclass fields
declared in `src/rtt/types.py`, in source order with the source defaults;
`collection` is the segment field the spec's data model lists and that
`vector.Database.add`, `batch.frames_worker` (`seg.collection = ...`),
`main.process` and the test suite all use, but which the shipped `types.py`
omits — that omission is the subject of claim C5. -/
structure Segment where
  segment_id : String
  video_id : String
  start_seconds : ℚ
  end_seconds : ℚ
  transcript_raw : String
  transcript_enriched : String := ""
  text_embedding : Vec := []
  frame_path : String := ""
  has_speech : Bool := true
  source : String := "transcript"
  collection : String := ""
deriving Repr, DecidableEq

/-- `types.Video`, with the `page_url` and `collection` fields that
`package.load`, `batch.frames_worker`, `server.create_app` and the tests
pass or read (missing from the shipped `types.py`; see claim C5). -/
structure Video where
  video_id : String
  title : String
  source_url : String
  context : String
  duration_seconds : ℚ
  status : String := "new"
  page_url : String := ""
  collection : String := ""
deriving Repr, DecidableEq

/-- One entry of the manifest's `segments` array as `package.create` writes
it (note: no `video_id`, no `collection`, no embedding). -/
structure ManifestSeg where
  segment_id : String
  start_seconds : ℚ
  end_seconds : ℚ
  source : String
  transcript_raw : String
  transcript_enriched : String
  frame_path : String
  has_speech : Bool
deriving Repr, DecidableEq

/-- `manifest.json` as written by `package.create`: `source_url` and
`page_url` keys are present only when truthy (the splat idiom); there is no
`collection` key, and `status` is written as the constant `"ready"`. -/
structure Manifest where
  video_id : String
  status : String
  title : String
  source_url : Option String
  page_url : Option String
  context : String
  duration_seconds : ℚ
  segments : List ManifestSeg
deriving Repr, DecidableEq

/-- One row of `segments.parquet` as `package.create` writes it: the ten
columns of the `pa.table` call (there is no `collection` column). -/
structure ParquetRow where
  segment_id : String
  video_id : String
  start_seconds : ℚ
  end_seconds : ℚ
  transcript_raw : String
  transcript_enriched : String
  text_embedding : Vec
  frame_path : String
  has_speech : Bool
  source : String
deriving Repr, DecidableEq

/-- The archive file: `manifest.json`, `segments.parquet` and the
`frames/NNNNNN.jpg` entries. -/
structure ArchiveFile where
  manifest : Manifest
  parquet : List ParquetRow
  frames : List String
deriving Repr, DecidableEq

/-- The `**({k: v} if v else ...)` splat: a key present only when truthy. -/
def optStr (s : String) : Option String := if s = "" then none else some s

/-- String order for the sorted `glob("*.jpg")` listing. -/
def strLE (a b : String) : Prop := a ≤ b

instance : DecidableRel strLE := fun a b => inferInstanceAs (Decidable (a ≤ b))

instance : IsTotal String strLE := ⟨fun a b => le_total a b⟩

instance : IsTrans String strLE := ⟨fun _ _ _ h1 h2 => le_trans h1 h2⟩

/-- `package.create`: build the parquet table and the manifest from the
segment list, then write manifest, parquet, and the sorted `*.jpg` files of
the frames directory under `frames/`. -/
def createArchive (video : Video) (segments : List Segment)
    (framesDir : List String) : ArchiveFile :=
  { manifest :=
      { video_id := video.video_id
        status := "ready"
        title := video.title
        source_url := optStr video.source_url
        page_url := optStr video.page_url
        context := video.context
        duration_seconds := video.duration_seconds
        segments := segments.map (fun s =>
          { segment_id := s.segment_id, start_seconds := s.start_seconds,
            end_seconds := s.end_seconds, source := s.source,
            transcript_raw := s.transcript_raw,
            transcript_enriched := s.transcript_enriched,
            frame_path := s.frame_path, has_speech := s.has_speech }) }
    parquet := segments.map (fun s =>
      { segment_id := s.segment_id, video_id := s.video_id,
        start_seconds := s.start_seconds, end_seconds := s.end_seconds,
        transcript_raw := s.transcript_raw,
        transcript_enriched := s.transcript_enriched,
        text_embedding := s.text_embedding, frame_path := s.frame_path,
        has_speech := s.has_speech, source := s.source })
    frames := (List.insertionSort strLE
        (framesDir.filter (fun n => n.endsWith ".jpg"))).map
        (fun n => "frames/" ++ n) }

/-- `package.load`: the Video header from the manifest (with `.get`
defaults for `source_url` and `page_url`), the segments rebuilt from the
manifest entries — `video_id` taken from the manifest header, no embedding,
no collection — and the parquet table as the columnar handle. -/
def loadArchive (a : ArchiveFile) : Video × List Segment × List ParquetRow :=
  ({ video_id := a.manifest.video_id
     title := a.manifest.title
     source_url := a.manifest.source_url.getD ""
     page_url := a.manifest.page_url.getD ""
     context := a.manifest.context
     duration_seconds := a.manifest.duration_seconds
     status := a.manifest.status },
   a.manifest.segments.map (fun s =>
     { segment_id := s.segment_id, video_id := a.manifest.video_id,
       start_seconds := s.start_seconds, end_seconds := s.end_seconds,
       transcript_raw := s.transcript_raw,
       transcript_enriched := s.transcript_enriched,
       frame_path := s.frame_path, has_speech := s.has_speech,
       source := s.source }),
   a.parquet)

/-- Concrete header and segment for the archive round-trip exhibits. -/
def vC2 : Video :=
  { video_id := "v2c", title := "T", source_url := "u", context := "ctx",
    duration_seconds := 9, status := "new", page_url := "p",
    collection := "pre" }

def sC2 : Segment :=
  { segment_id := "v2c_00000", video_id := "v2c", start_seconds := 0,
    end_seconds := 9, transcript_raw := "hello",
    transcript_enriched := "hello plus", text_embedding := [1, 0],
    frame_path := "frames/000000.jpg", has_speech := true,
    source := "transcript", collection := "pre" }

/-- One line of `failures.jsonl`: the four fields `_log_failure` writes. -/
structure FailLine where
  video_id : String
  source_url : String
  title : String
  error : String
deriving Repr, DecidableEq

/-- `types.VideoJob` as the pipeline uses it.  The shipped `types.py`
declares only the first four fields; `page_url` and `collection` are read by
`batch.frames_worker` and passed by `__main__` (see claim C5). -/
structure VideoJob where
  video_id : String
  title : String
  source_url : String
  context : String := ""
  page_url : String := ""
  collection : String := ""
deriving Repr, DecidableEq

/-- The JSON line `_log_failure` appends for a failed job. -/
def mkFailLine (j : VideoJob) (err : String) : FailLine :=
  { video_id := j.video_id, source_url := j.source_url, title := j.title,
    error := err }

/-- Scratch and output file names of the batch pipeline. -/
def audioFile (vid : String) : String := vid ++ ".audio"

def videoFile (vid : String) : String := vid ++ ".video"

def framesDirOf (vid : String) : String := vid ++ ".frames"

def archiveFile (vid : String) : String := vid ++ ".rtt"

/-- Whether `f` is one of the per-video scratch files of `vid`. -/
def isScratch (vid f : String) : Bool :=
  f = audioFile vid || f = videoFile vid || f = framesDirOf vid

/-- The observable output-directory state a stage worker touches: the
failures log, the files present, and the video ids with a checkpoint
file on disk (checkpoint contents are not needed by the claims). -/
structure PipeState where
  failures : List FailLine
  files : List String
  checkpoints : List String
deriving Repr, DecidableEq

/-- `_save_status`: the checkpoint file for `vid` exists afterwards. -/
def saveCkpt (st : PipeState) (vid : String) : PipeState :=
  { st with checkpoints :=
      if vid ∈ st.checkpoints then st.checkpoints else st.checkpoints ++ [vid] }

/-- A file comes into existence (download / mkdir / archive write). -/
def addFile (st : PipeState) (f : String) : PipeState :=
  { st with files := if f ∈ st.files then st.files else st.files ++ [f] }

/-- `unlink(missing_ok=True)` / `rmtree`. -/
def removeFile (st : PipeState) (f : String) : PipeState :=
  { st with files := st.files.erase f }

/-- `_log_failure`: append one JSON line under the failures lock (the lock
serialises concurrent appends; one append is modelled as atomic). -/
def logFailure (st : PipeState) (j : VideoJob) (err : String) : PipeState :=
  { st with failures := st.failures ++ [mkFailLine j err] }

/-- What the external calls inside `transcribe_worker`'s `try` block did. -/
inductive TranscribeOutcome where
  | subsOk (segs : List Segment)
  | asrOk (downloaded : Bool) (segs : List Segment)
  | asrEmpty (downloaded : Bool)
  | normEmpty
  | raised (downloaded : Bool) (msg : String)
deriving Repr, DecidableEq

/-- One `transcribe_worker` iteration on job `j`: the new directory state and
the segments forwarded to the enrich queue (`none` = job dropped).
Mirrors `batch.py`: on the ASR path the audio scratch (downloaded for
platform jobs) is unlinked right after transcription — so an exception
raised before that point leaves it behind; the `except` clause only logs
the failure. -/
def transcribeStep (st : PipeState) (j : VideoJob) (o : TranscribeOutcome) :
    PipeState × Option (List Segment) :=
  match o with
  | .subsOk segs => (saveCkpt st j.video_id, some segs)
  | .asrOk dl segs =>
      let st1 := if dl then addFile st (audioFile j.video_id) else st
      let st2 := removeFile st1 (audioFile j.video_id)
      (saveCkpt st2 j.video_id, some segs)
  | .asrEmpty dl =>
      let st1 := if dl then addFile st (audioFile j.video_id) else st
      let st2 := removeFile st1 (audioFile j.video_id)
      (logFailure st2 j "No segments returned", none)
  | .normEmpty => (logFailure st j "No segments after normalization", none)
  | .raised dl msg =>
      let st1 := if dl then addFile st (audioFile j.video_id) else st
      (logFailure st1 j msg, none)

/-- Result of the single external call of the enrich / embed workers. -/
inductive CallOutcome where
  | ok (segs : List Segment)
  | raised (msg : String)
deriving Repr, DecidableEq

/-- One `enrich_worker` iteration (the enrichment call either returns the
enriched segments or raises; the `except` clause only logs). -/
def enrichStep (st : PipeState) (j : VideoJob) (o : CallOutcome) :
    PipeState × Option (List Segment) :=
  match o with
  | .ok segs => (saveCkpt st j.video_id, some segs)
  | .raised msg => (logFailure st j msg, none)

/-- One `embed_worker` iteration. -/
def embedStep (st : PipeState) (j : VideoJob) (o : CallOutcome) :
    PipeState × Option (List Segment) :=
  match o with
  | .ok segs => (saveCkpt st j.video_id, some segs)
  | .raised msg => (logFailure st j msg, none)

/-- What the frame-extraction body did before finishing or raising. -/
inductive FramesOutcome where
  | ok (downloadedVideo : Bool)
  | raised (downloadedVideo : Bool) (msg : String)
deriving Repr, DecidableEq

/-- One `frames_worker` iteration: the frames scratch directory is created at
the top of the `try`; on success the archive is written and `_cleanup`
removes checkpoint and frames directory; on an exception only
`video_path.unlink(missing_ok=True)` runs — the frames directory and the
checkpoint remain, and the failure is logged. -/
def framesStep (st : PipeState) (j : VideoJob) (o : FramesOutcome) :
    PipeState × Option String :=
  let vid := j.video_id
  let st0 := addFile st (framesDirOf vid)
  match o with
  | .ok dl =>
      let st1 := if dl then removeFile (addFile st0 (videoFile vid)) (videoFile vid) else st0
      let st2 := addFile st1 (archiveFile vid)
      let st3 := { st2 with checkpoints := st2.checkpoints.erase vid,
                            files := st2.files.erase (framesDirOf vid) }
      (removeFile st3 (videoFile vid), some (archiveFile vid))
  | .raised dl msg =>
      let st1 := if dl then addFile st0 (videoFile vid) else st0
      let st2 := logFailure st1 j msg
      (removeFile st2 (videoFile vid), none)

/-- Concrete job and empty state for the stage-worker exhibits. -/
def jobT : VideoJob :=
  { video_id := "v1", title := "T",
    source_url := "https://youtube.com/watch?v=v1", context := "",
    page_url := "", collection := "" }

def stEmpty : PipeState := ⟨[], [], []⟩

/-- The dataclass fields of `VideoJob` as declared in `src/rtt/types.py`. -/
def videoJobFieldsSrc : List String := ["video_id", "title", "source_url", "context"]

/-- The `VideoJob` fields per the spec's data model. -/
def videoJobFieldsSpec : List String :=
  ["video_id", "title", "source_url", "page_url", "context", "collection"]

/-- The attributes of `j.job` that `batch.frames_worker` reads
(`batch.py` lines 253-262). -/
def framesWorkerJobReads : List String :=
  ["video_id", "title", "source_url", "page_url", "context", "collection"]

/-- The keyword arguments `__main__.py` (lines 157-162) passes to
`VideoJob(...)` for platform channels. -/
def mainVideoJobKwargs : List String :=
  ["video_id", "title", "source_url", "page_url"]

/-- A primitive step of `Path.write_text`. -/
inductive FileOp where
  | truncate
  | writeAll (s : String)
deriving Repr, DecidableEq

/-- Effect of one primitive step on the file's on-disk content. -/
def applyOp (s : String) (op : FileOp) : String :=
  match op with
  | .truncate => ""
  | .writeAll c => s ++ c

/-- `Path.write_text(data)` = `open(..., "w")` (which truncates) followed by
one `write(data)`. -/
def writeTextOps (content : String) : List FileOp := [.truncate, .writeAll content]

/-- The on-disk contents observable while a sequence of primitive file
operations runs, starting from the previous content. -/
def statesDuring (init : String) (ops : List FileOp) : List String :=
  ops.scanl applyOp init

/-- The contents `{video_id}.rtt.json` passes through while `_save_status`
(which is `status_path.write_text(json.dumps(status))`) runs, `old` being
the previous checkpoint document and `content` the new one. -/
def saveStatusStates (old content : String) : List String :=
  statesDuring old (writeTextOps content)

/-- The query parameters of `GET /search`. -/
structure SearchReq where
  q : String := ""
  segment_id : String := ""
  collections : String := ""
  n : ℕ := 50
deriving Repr, DecidableEq

/-- A `/search` response: `{query, results}` or an `HTTPException` status. -/
inductive SearchResult where
  | ok (query : String) (results : List (Row × ℚ))
  | httpError (code : ℕ)
deriving Repr, DecidableEq

/-- Model of Python's `not q.strip()`: the query strips to the empty string
exactly when every character is whitespace (stated on the character list so
that concrete instances reduce). -/
def isBlank (s : String) : Bool := s.data.all Char.isWhitespace

/-- `[c for c in collections.split(",") if c] if collections else None`:
the empty list plays the role of Python's falsy `None`/`[]`, which is how
`closest` (`if collections:`) treats it. -/
def parseCols (s : String) : List String :=
  if s = "" then [] else (s.splitOn ",").filter (fun c => c ≠ "")

/-- The `/search` handler of `server.create_app`: the `segment_id` branch
runs first (`db.get_segment`; `if not seg` is the not-found test — a found
row dict is never empty — then similarity search on the stored embedding);
otherwise an empty/whitespace `q` is a 400; otherwise the query is embedded
and searched.  Result formatting by `_to_result` joins the per-video map
and does not affect the claims. -/
def searchHandler (mq : Option Merged) (embedText : String → Vec)
    (req : SearchReq) : SearchResult :=
  let colFilter := parseCols req.collections
  if req.segment_id ≠ "" then
    match getSegment mq req.segment_id with
    | none => .httpError 404
    | some p => .ok ("similar:" ++ req.segment_id) (closest mq p.2 req.n colFilter)
  else if isBlank req.q then .httpError 400
  else .ok req.q (closest mq (embedText req.q) req.n colFilter)

/-- Concrete one-row merged index for the `/search` witness. -/
def mW8 : Merged := { rows := [mkRow "s8" "v8" 0 1 "pre"], embs := [[1]] }

/-- A row whose mask bit is set has its `collection` in the filter list. -/
theorem colMask_mem {C : List String} {r : Row} (h : colMask C r = true) :
    r.collection ∈ C := by
  obtain ⟨c, hc, he⟩ := List.any_eq_true.mp h
  exact (of_decide_eq_true he) ▸ hc

/-- Every element of `applyMask` carries the row of one input element. -/
theorem applyMask_fst {C : List String} {l : List (Row × ℚ)} {p : Row × WithBot ℚ}
    (hp : p ∈ applyMask C l) : ∃ x, x ∈ l ∧ p.1 = x.1 := by
  unfold applyMask at hp
  split at hp
  · obtain ⟨x, hx, he⟩ := List.mem_map.mp hp
    subst he
    exact ⟨x, hx, rfl⟩
  · obtain ⟨x, hx, he⟩ := List.mem_map.mp hp
    subst he
    refine ⟨x, hx, ?_⟩
    by_cases h : colMask C x.1 <;> simp [h]

/-- With a non-empty filter, a masked element that kept a finite score has
its collection inside the filter. -/
theorem applyMask_not_bot {C : List String} {l : List (Row × ℚ)}
    {p : Row × WithBot ℚ} (hC : C ≠ []) (hp : p ∈ applyMask C l)
    (hb : p.2 ≠ ⊥) : p.1.collection ∈ C := by
  unfold applyMask at hp
  have hCe : C.isEmpty = false := by
    cases C with
    | nil => exact absurd rfl hC
    | cons a l => rfl
  rw [hCe] at hp
  simp only [Bool.false_eq_true, if_false] at hp
  obtain ⟨x, hx, he⟩ := List.mem_map.mp hp
  subst he
  by_cases h : colMask C x.1
  · simpa [h] using colMask_mem h
  · simp [h] at hb

/-- C1: for every merged index state, every query vector, every `n` and every
non-empty collection filter `C`, `Database.closest` returns at most `n` rows,
only rows whose `collection` lies in `C`, and the rows in descending score
order (equivalently ascending `_distance = 1 - score`). -/
theorem closest_respects_filter_limit_order (mq : Option Merged) (q : Vec)
    (n : ℕ) (C : List String) (hC : C ≠ []) :
    (closest mq q n C).length ≤ n ∧
    (∀ p ∈ closest mq q n C, p.1.collection ∈ C) ∧
    List.Pairwise (fun a b : Row × ℚ => b.2 ≤ a.2) (closest mq q n C) := by
  obtain _ | m := mq
  · simp [closest]
  · by_cases hz : vecNormSq q = 0
    · simp [closest, hz]
    · have hcl : closest (some m) q n C =
          ((((List.insertionSort byScore
                (applyMask C (rawScores m (normalizeQuery q)))).take
              (min n (applyMask C (rawScores m (normalizeQuery q))).length)).takeWhile
            (fun p => decide (p.2 ≠ ⊥))).map (fun p => (p.1, p.2.unbot' 0))) := by
        simp [closest, hz]
      set scored := applyMask C (rawScores m (normalizeQuery q)) with hscored
      set ranked := (List.insertionSort byScore scored).take (min n scored.length)
        with hranked
      set res := ranked.takeWhile (fun p => decide (p.2 ≠ ⊥)) with hres
      have hressub : List.Sublist res ranked := (List.takeWhile_prefix _).sublist
      have hmemres : ∀ p ∈ res, p ∈ scored ∧ p.2 ≠ ⊥ := by
        intro p hp
        have hp' := hp
        rw [hres] at hp'
        have hpr := List.mem_takeWhile_imp hp'
        refine ⟨?_, of_decide_eq_true hpr⟩
        have hp2 := hressub.mem hp
        rw [hranked] at hp2
        exact (List.perm_insertionSort byScore scored).mem_iff.mp
          (List.mem_of_mem_take hp2)
      refine ⟨?_, ?_, ?_⟩
      · rw [hcl]
        calc (res.map (fun p => (p.1, p.2.unbot' 0))).length
            = res.length := List.length_map _ _
          _ ≤ ranked.length := hressub.length_le
          _ ≤ min n scored.length := List.length_take_le _ _
          _ ≤ n := min_le_left _ _
      · rw [hcl]
        intro p hp
        obtain ⟨x, hx, he⟩ := List.mem_map.mp hp
        obtain ⟨hxs, hxb⟩ := hmemres x hx
        have := applyMask_not_bot hC hxs hxb
        rw [← he]
        exact this
      · rw [hcl]
        have hsorted : List.Pairwise byScore res := by
          have h1 : List.Pairwise byScore ranked := by
            rw [hranked]
            exact (List.sorted_insertionSort byScore scored).sublist
              (List.take_sublist _ _)
          exact h1.sublist hressub
        refine List.pairwise_map.mpr ?_
        refine List.Pairwise.imp_of_mem ?_ hsorted
        intro a b ha hb hab
        obtain ⟨av, hav⟩ := WithBot.ne_bot_iff_exists.mp (hmemres a ha).2
        obtain ⟨bv, hbv⟩ := WithBot.ne_bot_iff_exists.mp (hmemres b hb).2
        have hab' : b.2 ≤ a.2 := hab
        show (b.2.unbot' 0) ≤ (a.2.unbot' 0)
        rw [← hav, ← hbv] at hab' ⊢
        rw [WithBot.unbot'_coe, WithBot.unbot'_coe]
        exact WithBot.coe_le_coe.mp hab'

/-- Witness: the C1 contract instantiated at a concrete two-row index, a
concrete query, `n = 1` and the non-empty filter `["pre"]`. -/
theorem closest_respects_filter_limit_order_witness :
    (closest (some mW1) [2, 1] 1 ["pre"]).length ≤ 1 ∧
    (∀ p ∈ closest (some mW1) [2, 1] 1 ["pre"], p.1.collection ∈ ["pre"]) ∧
    List.Pairwise (fun a b : Row × ℚ => b.2 ≤ a.2)
      (closest (some mW1) [2, 1] 1 ["pre"]) :=
  closest_respects_filter_limit_order (some mW1) [2, 1] 1 ["pre"] (by decide)

/-- C7: for every index state and every collection filter (also no filter),
`count(C)` equals the length of `list_segments(0, count(C), C)`. -/
theorem count_eq_exhaustive_listing (mq : Option Merged) (C : List String) :
    countSegments mq C = (listSegments mq 0 (countSegments mq C) C).length := by
  obtain _ | m := mq
  · simp [countSegments, listSegments]
  · simp [countSegments, listSegments]

/-- Rows of `rawScores` come from the merged row list. -/
theorem rawScores_fst_mem {m : Merged} {q : Vec} {p : Row × ℚ}
    (hp : p ∈ rawScores m q) : p.1 ∈ m.rows := by
  obtain ⟨x, hx, he⟩ := List.mem_map.mp hp
  subst he
  exact (List.of_mem_zip hx).1

/-- Every row `closest` returns is a row of the merged state. -/
theorem closest_fst_mem {m : Merged} {q : Vec} {n : ℕ} {C : List String}
    {p : Row × ℚ} (hp : p ∈ closest (some m) q n C) : p.1 ∈ m.rows := by
  by_cases hz : vecNormSq q = 0
  · simp [closest, hz] at hp
  · have hcl : closest (some m) q n C =
        ((((List.insertionSort byScore
              (applyMask C (rawScores m (normalizeQuery q)))).take
            (min n (applyMask C (rawScores m (normalizeQuery q))).length)).takeWhile
          (fun p => decide (p.2 ≠ ⊥))).map (fun p => (p.1, p.2.unbot' 0))) := by
      simp [closest, hz]
    rw [hcl] at hp
    obtain ⟨x, hx, he⟩ := List.mem_map.mp hp
    have hx1 : x ∈ (List.insertionSort byScore
        (applyMask C (rawScores m (normalizeQuery q)))) :=
      List.mem_of_mem_take ((List.takeWhile_prefix _).sublist.mem hx)
    have hx2 := (List.perm_insertionSort byScore _).mem_iff.mp hx1
    obtain ⟨y, hy, hyx⟩ := applyMask_fst hx2
    rw [← he]
    rw [hyx]
    exact rawScores_fst_mem hy

/-- Every row `list_segments` returns is a row of the merged state. -/
theorem listSegments_mem_rows {m : Merged} {off lim : ℕ} {C : List String}
    {r : Row} (hr : r ∈ listSegments (some m) off lim C) : r ∈ m.rows := by
  unfold listSegments at hr
  have h1 : r ∈ filterRows m.rows C :=
    (List.drop_sublist _ _).mem ((List.take_sublist _ _).mem hr)
  unfold filterRows at h1
  split at h1
  · exact h1
  · exact List.mem_of_mem_filter h1

/-- The row `get_segment` returns is a row of the merged state, and the
embedding it returns is a row of the stored matrix. -/
theorem getSegment_mem_rows {m : Merged} {sid : String} {r : Row} {e : Vec}
    (h : getSegment (some m) sid = some (r, e)) : r ∈ m.rows ∧ e ∈ m.embs := by
  simp only [getSegment] at h
  rcases hidx : m.rows.findIdx? (fun x => x.segment_id = sid) with _ | idx <;>
    rw [hidx] at h <;> dsimp only at h
  · simp at h
  · rcases hr : m.rows[idx]? with _ | r' <;>
      rcases he : m.embs[idx]? with _ | e' <;> rw [hr, he] at h <;> simp at h
    obtain ⟨h1, h2⟩ := h
    subst h1
    subst h2
    exact ⟨List.getElem?_mem hr, List.getElem?_mem he⟩

/-- Every row `video_segments` returns is a row of the merged state. -/
theorem videoSegments_mem_rows {m : Merged} {vid : String} {r : Row}
    (hr : r ∈ videoSegments (some m) vid) : r ∈ m.rows := by
  simp only [videoSegments] at hr
  split at hr
  · simp at hr
  · exact List.mem_of_mem_filter
      ((List.perm_insertionSort byStart _).mem_iff.mp hr)

/-- C10 (amended): after `_ensure_merged()` and `compact()`, `add_table` of a
NON-EMPTY table `t` invalidates the merged state and discards everything
loaded before: the database then holds exactly `t`, the next merge holds
exactly `t`'s rows, and every read operation afterwards sees only rows of
`t`. -/
theorem addTable_after_compact_resets (db : Database)
    (paired : List (List Row × List Vec)) (t : Table) (db3 : Database)
    (_hp : paired.Perm (db.tables.zip db.chunks)) (ht : t.rows ≠ [])
    (hdb3 : db3 = addTable (compact (ensureMergedWith db paired)) t) :
    db3.merged = none ∧ db3.membs = none ∧
    db3.tables = [t.rows] ∧ db3.chunks = [addChunk t] ∧
    (∀ paired2, paired2.Perm (db3.tables.zip db3.chunks) →
      mergedView (ensureMergedWith db3 paired2)
          = some ⟨t.rows, (addChunk t).map storeNorm⟩ ∧
      (∀ q n C p, p ∈ closest (mergedView (ensureMergedWith db3 paired2)) q n C →
        p.1 ∈ t.rows) ∧
      (∀ off lim C r,
        r ∈ listSegments (mergedView (ensureMergedWith db3 paired2)) off lim C →
        r ∈ t.rows) ∧
      (∀ sid r e,
        getSegment (mergedView (ensureMergedWith db3 paired2)) sid = some (r, e) →
        r ∈ t.rows) ∧
      (∀ vid r, r ∈ videoSegments (mergedView (ensureMergedWith db3 paired2)) vid →
        r ∈ t.rows) ∧
      (∀ C, countSegments (mergedView (ensureMergedWith db3 paired2)) C
          = (filterRows t.rows C).length)) := by
  have hlen : ¬ t.rows.length = 0 := by
    simpa [List.length_eq_zero] using ht
  have h3 : db3 = { tables := [t.rows], chunks := [addChunk t],
                    merged := none, membs := none } := by
    rw [hdb3]
    unfold addTable compact invalidate
    rw [if_neg hlen]
    simp
  refine ⟨by rw [h3], by rw [h3], by rw [h3], by rw [h3], ?_⟩
  intro paired2 hp2
  rw [h3] at hp2
  have hp2' : paired2 = [(t.rows, addChunk t)] :=
    List.perm_singleton.mp (by simpa using hp2)
  subst hp2'
  have hmv : mergedView (ensureMergedWith db3 [(t.rows, addChunk t)])
      = some ⟨t.rows, (addChunk t).map storeNorm⟩ := by
    rw [h3]
    unfold ensureMergedWith mergedView
    simp
  refine ⟨hmv, ?_, ?_, ?_, ?_, ?_⟩
  · intro q n C p hp'
    rw [hmv] at hp'
    exact closest_fst_mem hp'
  · intro off lim C r hr
    rw [hmv] at hr
    exact listSegments_mem_rows hr
  · intro sid r e hr
    rw [hmv] at hr
    exact (getSegment_mem_rows hr).1
  · intro vid r hr
    rw [hmv] at hr
    exact videoSegments_mem_rows hr
  · intro C
    rw [hmv]
    rfl

/-- The `.get(key, "")` read of a manifest key written by the truthy splat
gives back the original string. -/
theorem optStr_getD (s : String) : (optStr s).getD "" = s := by
  unfold optStr
  by_cases h : s = "" <;> simp [h]

/-- C2 (amended): the archive round-trip preserves the header fields
`video_id`, `title`, `source_url`, `page_url`, `context`,
`duration_seconds` and — provided every segment carries the header's
`video_id`, as every pipeline-produced archive does — the per-segment
fields `segment_id`, `start_seconds`, `end_seconds`, `transcript_raw`,
`transcript_enriched`, `frame_path`, `has_speech`, `source`, in order, and
the set of frame entries.  The header comes back with `status = "ready"`
and empty `collection`, and every segment comes back with empty
`collection` (and no embedding): `package.create` stores neither a
segment `collection` column nor a header `collection` key, and writes
`status` as the constant `"ready"`. -/
theorem create_load_roundtrip (video : Video) (segments : List Segment)
    (framesDir : List String)
    (hvid : ∀ s ∈ segments, s.video_id = video.video_id) :
    (loadArchive (createArchive video segments framesDir)).1
        = { video with status := "ready", collection := "" } ∧
    (loadArchive (createArchive video segments framesDir)).2.1
        = segments.map (fun s =>
            { s with text_embedding := [], collection := "" }) ∧
    (createArchive video segments framesDir).frames.Perm
        ((framesDir.filter (fun n => n.endsWith ".jpg")).map
          (fun n => "frames/" ++ n)) ∧
    (loadArchive (createArchive video segments framesDir)).2.2
        = (createArchive video segments framesDir).parquet := by
  refine ⟨?_, ?_, ?_, rfl⟩
  · unfold loadArchive createArchive
    dsimp only
    rw [optStr_getD, optStr_getD]
  · unfold loadArchive createArchive
    dsimp only
    rw [List.map_map]
    refine List.map_congr_left ?_
    intro s hs
    dsimp only [Function.comp]
    rw [hvid s hs]
  · unfold createArchive
    dsimp only
    exact (List.perm_insertionSort strLE _).map _

/-- Witness: the amended C2 round-trip at a concrete header, one segment
and one frame file. -/
theorem create_load_roundtrip_witness :
    (loadArchive (createArchive vC2 [sC2] ["000000.jpg"])).1
        = { vC2 with status := "ready", collection := "" } ∧
    (loadArchive (createArchive vC2 [sC2] ["000000.jpg"])).2.1
        = [sC2].map (fun s =>
            { s with text_embedding := [], collection := "" }) ∧
    (createArchive vC2 [sC2] ["000000.jpg"]).frames.Perm
        ((["000000.jpg"].filter (fun n => n.endsWith ".jpg")).map
          (fun n => "frames/" ++ n)) ∧
    (loadArchive (createArchive vC2 [sC2] ["000000.jpg"])).2.2
        = (createArchive vC2 [sC2] ["000000.jpg"]).parquet :=
  create_load_roundtrip vC2 [sC2] ["000000.jpg"] (by decide)

/-- C2 counterexample: a header with `collection = "pre"`, `status = "new"`
and a segment with `collection = "pre"` come back from the round-trip with
empty collections and status `"ready"` — the round-trip does not preserve
the `collection` and `status` fields the claim lists. -/
theorem create_load_loses_collection :
    sC2.collection = "pre" ∧ vC2.collection = "pre" ∧ vC2.status = "new" ∧
    ((loadArchive (createArchive vC2 [sC2] [])).2.1.map Segment.collection
        = [""]) ∧
    (loadArchive (createArchive vC2 [sC2] [])).1.collection = "" ∧
    (loadArchive (createArchive vC2 [sC2] [])).1.status = "ready" := by
  decide

/-- The file just added is present afterwards. -/
theorem mem_addFile (st : PipeState) (f : String) : f ∈ (addFile st f).files := by
  unfold addFile
  by_cases h : f ∈ st.files <;> simp [h]

/-- `addFile` never removes a file. -/
theorem mem_addFile_of_mem {st : PipeState} {a : String} (f : String)
    (h : a ∈ st.files) : a ∈ (addFile st f).files := by
  unfold addFile
  by_cases hf : f ∈ st.files <;> simp [hf, h]

theorem addFile_nodup {st : PipeState} (f : String) (h : st.files.Nodup) :
    (addFile st f).files.Nodup := by
  unfold addFile
  by_cases hf : f ∈ st.files <;> simp [hf, h, List.nodup_append]

theorem framesDir_ne_videoFile (vid : String) :
    framesDirOf vid ≠ videoFile vid := by
  intro h
  have h2 := congrArg String.length h
  have l1 : (".frames" : String).length = 7 := by decide
  have l2 : (".video" : String).length = 6 := by decide
  simp only [framesDirOf, videoFile, String.length_append, l1, l2] at h2
  omega

/-- C3 (amended): an exception inside any stage worker is caught and handled
by appending exactly one failure line with the fields video_id, source_url,
title, error (the append runs under the failures-log lock, modelled as
atomic), the job is not forwarded to any later stage, and the checkpoint is
kept.  Scratch files are NOT removed in general: the transcribe handler
leaves a downloaded `{vid}.audio` in place, and the frames handler unlinks
only `{vid}.video` while the `{vid}.frames` scratch directory remains. -/
theorem worker_exception_contract (st : PipeState) (j : VideoJob)
    (msg : String) (dl : Bool) (hnd : st.files.Nodup) :
    ((transcribeStep st j (.raised dl msg)).1.failures
        = st.failures ++ [mkFailLine j msg] ∧
      (transcribeStep st j (.raised dl msg)).2 = none ∧
      (transcribeStep st j (.raised dl msg)).1.checkpoints = st.checkpoints ∧
      (dl = true →
        audioFile j.video_id ∈ (transcribeStep st j (.raised dl msg)).1.files)) ∧
    enrichStep st j (.raised msg) = (logFailure st j msg, none) ∧
    embedStep st j (.raised msg) = (logFailure st j msg, none) ∧
    ((framesStep st j (.raised dl msg)).1.failures
        = st.failures ++ [mkFailLine j msg] ∧
      (framesStep st j (.raised dl msg)).2 = none ∧
      (framesStep st j (.raised dl msg)).1.checkpoints = st.checkpoints ∧
      videoFile j.video_id ∉ (framesStep st j (.raised dl msg)).1.files ∧
      framesDirOf j.video_id ∈ (framesStep st j (.raised dl msg)).1.files) := by
  refine ⟨⟨?_, ?_, ?_, ?_⟩, rfl, rfl, ?_, ?_, ?_, ?_, ?_⟩
  · unfold transcribeStep logFailure addFile
    by_cases hdl : dl <;> simp [hdl]
  · rfl
  · unfold transcribeStep logFailure addFile
    by_cases hdl : dl <;> simp [hdl]
  · intro hdl
    subst hdl
    unfold transcribeStep logFailure
    dsimp only
    exact mem_addFile st (audioFile j.video_id)
  · unfold framesStep logFailure addFile removeFile
    by_cases hdl : dl <;> simp [hdl]
  · rfl
  · unfold framesStep logFailure addFile removeFile
    by_cases hdl : dl <;> simp [hdl]
  · unfold framesStep logFailure removeFile
    dsimp only
    have hn0 : (addFile st (framesDirOf j.video_id)).files.Nodup :=
      addFile_nodup _ hnd
    by_cases hdl : dl <;> simp only [hdl, if_true, if_false, Bool.false_eq_true]
    · exact (addFile_nodup _ hn0).not_mem_erase
    · exact hn0.not_mem_erase
  · unfold framesStep logFailure removeFile
    dsimp only
    have hne := framesDir_ne_videoFile j.video_id
    have hmem : framesDirOf j.video_id
        ∈ (addFile st (framesDirOf j.video_id)).files :=
      mem_addFile st (framesDirOf j.video_id)
    by_cases hdl : dl <;> simp only [hdl, if_true, if_false, Bool.false_eq_true]
    · exact (List.mem_erase_of_ne hne).mpr (mem_addFile_of_mem _ hmem)
    · exact (List.mem_erase_of_ne hne).mpr hmem

/-- Witness: the amended C3 behaviour at a concrete job, message and empty
directory state, with the audio already downloaded. -/
theorem worker_exception_contract_witness :
    ((transcribeStep stEmpty jobT (.raised true "RuntimeError: x")).1.failures
        = stEmpty.failures ++ [mkFailLine jobT "RuntimeError: x"] ∧
      (transcribeStep stEmpty jobT (.raised true "RuntimeError: x")).2 = none ∧
      (transcribeStep stEmpty jobT (.raised true "RuntimeError: x")).1.checkpoints
        = stEmpty.checkpoints ∧
      (true = true →
        audioFile jobT.video_id
          ∈ (transcribeStep stEmpty jobT (.raised true "RuntimeError: x")).1.files)) ∧
    enrichStep stEmpty jobT (.raised "RuntimeError: x")
        = (logFailure stEmpty jobT "RuntimeError: x", none) ∧
    embedStep stEmpty jobT (.raised "RuntimeError: x")
        = (logFailure stEmpty jobT "RuntimeError: x", none) ∧
    ((framesStep stEmpty jobT (.raised true "RuntimeError: x")).1.failures
        = stEmpty.failures ++ [mkFailLine jobT "RuntimeError: x"] ∧
      (framesStep stEmpty jobT (.raised true "RuntimeError: x")).2 = none ∧
      (framesStep stEmpty jobT (.raised true "RuntimeError: x")).1.checkpoints
        = stEmpty.checkpoints ∧
      videoFile jobT.video_id
        ∉ (framesStep stEmpty jobT (.raised true "RuntimeError: x")).1.files ∧
      framesDirOf jobT.video_id
        ∈ (framesStep stEmpty jobT (.raised true "RuntimeError: x")).1.files) :=
  worker_exception_contract stEmpty jobT "RuntimeError: x" true (by decide)

/-- C3 counterexample: after an exception in `transcribe_worker` that struck
once the audio was downloaded, the scratch file `{vid}.audio` is still
present, and after an exception in `frames_worker` the `{vid}.frames`
scratch directory is still present — the failure handlers do not remove
the job's scratch files. -/
theorem worker_failure_leaves_scratch :
    audioFile "v1"
        ∈ (transcribeStep stEmpty jobT (.raised true "HTTPError: boom")).1.files ∧
    isScratch "v1" (audioFile "v1") = true ∧
    framesDirOf "v1"
        ∈ (framesStep stEmpty jobT (.raised true "OSError: boom")).1.files ∧
    isScratch "v1" (framesDirOf "v1") = true := by
  decide

/-- C5: the `VideoJob` dataclass in `src/rtt/types.py` declares only
video_id, title, source_url and context, while the spec's data model and
the code that consumes jobs also need `page_url` and `collection`:
`batch.frames_worker` reads both when building the archive header and
tagging segment collections, and `__main__` constructs `VideoJob` with a
`page_url` keyword — accesses that fail on the declared dataclass. -/
theorem videoJob_missing_spec_fields :
    "page_url" ∉ videoJobFieldsSrc ∧ "collection" ∉ videoJobFieldsSrc ∧
    "page_url" ∈ framesWorkerJobReads ∧ "collection" ∈ framesWorkerJobReads ∧
    "page_url" ∈ mainVideoJobKwargs ∧
    videoJobFieldsSpec.filter (fun f => !(videoJobFieldsSrc.contains f))
        = ["page_url", "collection"] := by
  decide

/-- C6 counterexample: while `_save_status` rewrites the checkpoint with a
truncating `write_text`, the file passes through the empty content, which
is neither the previous nor the new document — the write is not an atomic
replace. -/
theorem saveStatus_mid_write_truncated :
    "" ∈ saveStatusStates "old-checkpoint" "new-checkpoint" ∧
    "" ≠ "old-checkpoint" ∧ "" ≠ "new-checkpoint" := by
  decide

/-- C6 (amended): `_save_status` overwrites `{video_id}.rtt.json` in place
with `Path.write_text`, so the on-disk content passes through exactly
`old`, then `""` (after the truncating open), then the new document: a
crash between truncation and write loses the checkpoint instead of keeping
the previous complete document. -/
theorem saveStatus_truncates_then_writes (old content : String) :
    saveStatusStates old content = [old, "", content] := by
  simp [saveStatusStates, statesDuring, writeTextOps, List.scanl, applyOp]

/-- C8: `/search` returns 400 when `q` is empty and no `segment_id` is
given; 404 when `segment_id` names no indexed segment; and for a known
`segment_id` a response whose query field is `similar:` followed by the
id (with the results of a similarity search on the stored embedding). -/
theorem search_endpoint_contract (mq : Option Merged)
    (embedText : String → Vec) (cols qstr : String) (n : ℕ) (sid : String)
    (hsid : sid ≠ "") :
    searchHandler mq embedText
        { q := "", segment_id := "", collections := cols, n := n }
        = .httpError 400 ∧
    (getSegment mq sid = none →
      searchHandler mq embedText
          { q := qstr, segment_id := sid, collections := cols, n := n }
          = .httpError 404) ∧
    (∀ r e, getSegment mq sid = some (r, e) →
      searchHandler mq embedText
          { q := qstr, segment_id := sid, collections := cols, n := n }
          = .ok ("similar:" ++ sid) (closest mq e n (parseCols cols))) := by
  refine ⟨?_, ?_, ?_⟩
  · unfold searchHandler
    dsimp only
    rw [if_neg (by simp), if_pos (by decide)]
  · intro h
    unfold searchHandler
    dsimp only
    rw [if_pos hsid, h]
  · intro r e h
    unfold searchHandler
    dsimp only
    rw [if_pos hsid, h]

/-- Witness: the `/search` contract at a concrete one-row index and the
known segment id `"s8"`. -/
theorem search_endpoint_contract_witness :
    searchHandler (some mW8) (fun _ => [1])
        { q := "", segment_id := "", collections := "", n := 5 }
        = .httpError 400 ∧
    (getSegment (some mW8) "s8" = none →
      searchHandler (some mW8) (fun _ => [1])
          { q := "hello", segment_id := "s8", collections := "", n := 5 }
          = .httpError 404) ∧
    (∀ r e, getSegment (some mW8) "s8" = some (r, e) →
      searchHandler (some mW8) (fun _ => [1])
          { q := "hello", segment_id := "s8", collections := "", n := 5 }
          = .ok ("similar:" ++ "s8") (closest (some mW8) e 5 (parseCols ""))) :=
  search_endpoint_contract (some mW8) (fun _ => [1]) "" "hello" 5 "s8" (by decide)

/-- Rows returned by `closest` after a merge come from one of the tables the
database held when the merge was forced. -/
theorem closest_after_merge_mem (db : Database)
    (paired : List (List Row × List Vec)) (hm : db.merged = none)
    (hperm : paired.Perm (db.tables.zip db.chunks)) :
    ∀ q n C p, p ∈ closest (mergedView (ensureMergedWith db paired)) q n C →
      ∃ tb, tb ∈ db.tables ∧ p.1 ∈ tb := by
  intro q n C p hp
  unfold ensureMergedWith at hp
  rw [hm] at hp
  dsimp only at hp
  by_cases hT : db.tables.isEmpty
  · rw [if_pos hT] at hp
    unfold mergedView at hp
    rw [hm] at hp
    dsimp only at hp
    simp [closest] at hp
  · rw [if_neg hT] at hp
    unfold mergedView at hp
    dsimp only at hp
    have hmem := closest_fst_mem hp
    obtain ⟨l, hl, hpl⟩ := List.mem_flatten.mp hmem
    obtain ⟨x, hx, hxl⟩ := List.mem_map.mp hl
    have hxz := hperm.subset hx
    exact ⟨x.1, (List.of_mem_zip hxz).1, hxl ▸ hpl⟩

/-- The boot fold from any accumulator: width-OK archives are appended (the
non-empty ones as tables, all of them as registered videos), wrong-width
archives are skipped, and the merged state is at most invalidated. -/
theorem bootLoad_go (archives : List Archive) :
    ∀ acc : Database × List String,
      ((archives.foldl bootStep acc).1.tables
          = acc.1.tables
            ++ ((archives.filter widthOK).filter
                  (fun a => !a.rows.isEmpty)).map Archive.rows) ∧
      ((archives.foldl bootStep acc).1.chunks
          = acc.1.chunks
            ++ ((archives.filter widthOK).filter
                  (fun a => !a.rows.isEmpty)).map
                  (fun a => addChunk ⟨a.rows, a.embs⟩)) ∧
      ((archives.foldl bootStep acc).2
          = acc.2 ++ (archives.filter widthOK).map Archive.video_id) ∧
      ((archives.foldl bootStep acc).1.merged = acc.1.merged ∨
        (archives.foldl bootStep acc).1.merged = none) ∧
      ((archives.foldl bootStep acc).1.membs = acc.1.membs ∨
        (archives.foldl bootStep acc).1.membs = none) := by
  induction archives with
  | nil => intro acc; simp
  | cons a rest ih =>
    intro acc
    rw [List.foldl_cons]
    by_cases hw : widthOK a = true
    · by_cases hz : a.rows.isEmpty = true
      · have ha : (⟨a.rows, a.embs⟩ : Table).rows.length = 0 := by
          simp_all [List.isEmpty_iff]
        have hstep : bootStep acc a = (acc.1, acc.2 ++ [a.video_id]) := by
          unfold bootStep addTable
          rw [if_pos hw, if_pos ha]
        rw [hstep]
        obtain ⟨h1, h2, h3, h4, h5⟩ := ih (acc.1, acc.2 ++ [a.video_id])
        exact ⟨by rw [h1]; simp [List.filter_cons, hw, hz],
          by rw [h2]; simp [List.filter_cons, hw, hz],
          by rw [h3]; simp [List.filter_cons, hw],
          h4, h5⟩
      · have ha : ¬ (⟨a.rows, a.embs⟩ : Table).rows.length = 0 := by
          simp_all [List.isEmpty_iff, List.length_eq_zero]
        have hstep : bootStep acc a
            = (invalidate { acc.1 with
                  tables := acc.1.tables ++ [a.rows],
                  chunks := acc.1.chunks ++ [addChunk ⟨a.rows, a.embs⟩] },
               acc.2 ++ [a.video_id]) := by
          unfold bootStep addTable
          rw [if_pos hw, if_neg ha]
        rw [hstep]
        obtain ⟨h1, h2, h3, h4, h5⟩ := ih _
        refine ⟨?_, ?_, ?_, ?_, ?_⟩
        · rw [h1]; simp [List.filter_cons, hw, hz, invalidate]
        · rw [h2]; simp [List.filter_cons, hw, hz, invalidate]
        · rw [h3]; simp [List.filter_cons, hw, invalidate]
        · rcases h4 with h | h <;> rw [h] <;> simp [invalidate]
        · rcases h5 with h | h <;> rw [h] <;> simp [invalidate]
    · have hstep : bootStep acc a = acc := by
        unfold bootStep
        rw [if_neg hw]
      rw [hstep]
      obtain ⟨h1, h2, h3, h4, h5⟩ := ih acc
      exact ⟨by rw [h1]; simp [List.filter_cons, hw],
        by rw [h2]; simp [List.filter_cons, hw],
        by rw [h3]; simp [List.filter_cons, hw], h4, h5⟩

/-- C4: when the search service boots, exactly the archives whose embedding
column width is not 768 are skipped (logged) and the rest are loaded — the
index tables, chunks and registered videos are precisely those of the
width-OK archives — and after the boot merge every query answer comes from
a width-OK archive (the service does not crash: all operations are total
functions of the loaded state). -/
theorem bootLoad_skips_bad_archives (archives : List Archive) :
    (bootLoad archives).1.tables
        = ((archives.filter widthOK).filter
            (fun a => !a.rows.isEmpty)).map Archive.rows ∧
    (bootLoad archives).1.chunks
        = ((archives.filter widthOK).filter
            (fun a => !a.rows.isEmpty)).map (fun a => addChunk ⟨a.rows, a.embs⟩) ∧
    (bootLoad archives).2 = (archives.filter widthOK).map Archive.video_id ∧
    (∀ paired,
      paired.Perm ((bootLoad archives).1.tables.zip (bootLoad archives).1.chunks) →
      ∀ q n C p,
        p ∈ closest (mergedView (ensureMergedWith (bootLoad archives).1 paired)) q n C →
        ∃ a, a ∈ archives ∧ widthOK a = true ∧ p.1 ∈ a.rows) := by
  obtain ⟨h1, h2, h3, h4, h5⟩ := bootLoad_go archives (Database.empty, [])
  have hm : (bootLoad archives).1.merged = none := by
    rcases h4 with h | h <;> exact h
  refine ⟨by simpa using h1, by simpa using h2, by simpa using h3, ?_⟩
  intro paired hperm q n C p hp
  obtain ⟨tb, htb, hptb⟩ := closest_after_merge_mem _ paired hm hperm q n C p hp
  rw [(by simpa using h1 :
      (bootLoad archives).1.tables
        = ((archives.filter widthOK).filter
            (fun a => !a.rows.isEmpty)).map Archive.rows)] at htb
  obtain ⟨a, ha, hae⟩ := List.mem_map.mp htb
  have ha2 := List.mem_filter.mp ha
  have ha3 := List.mem_filter.mp ha2.1
  exact ⟨a, ha3.1, ha3.2, hae ▸ hptb⟩

theorem widthOK_archGood : widthOK archGood = true := by
  simp only [widthOK, archGood, List.all_cons, List.all_nil, List.length_replicate]
  decide

theorem widthOK_archBad : widthOK archBad = false := by
  simp only [widthOK, archBad, List.all_cons, List.all_nil, List.length_replicate]
  decide

theorem bootStep_good :
    bootStep (Database.empty, []) archGood
      = (⟨[archGood.rows], [addChunk ⟨archGood.rows, archGood.embs⟩], none, none⟩,
         ["good"]) := by
  unfold bootStep
  rw [if_pos widthOK_archGood]
  unfold addTable invalidate Database.empty
  rw [if_neg (by decide : ¬ ((⟨archGood.rows, archGood.embs⟩ : Table).rows.length = 0))]
  simp only [List.nil_append]
  rfl

theorem bootStep_bad (acc : Database × List String) : bootStep acc archBad = acc := by
  unfold bootStep
  rw [if_neg (by simp [widthOK_archBad])]

/-- Concrete boot run: loading a 768-wide archive next to a 512-wide one
registers and indexes only the former. -/
theorem bootLoad_demo :
    (bootLoad [archGood, archBad]).2 = ["good"] ∧
    (bootLoad [archGood, archBad]).1.tables = [archGood.rows] ∧
    (bootLoad [archGood, archBad]).1.chunks
        = [addChunk ⟨archGood.rows, archGood.embs⟩] := by
  unfold bootLoad
  rw [List.foldl_cons, bootStep_good, List.foldl_cons, bootStep_bad, List.foldl_nil]
  exact ⟨rfl, rfl, rfl⟩

section

attribute [local semireducible] Rat.add Rat.mul Rat.inv Rat.sub

set_option maxRecDepth 4000

/-- The witness embeddings are float16-exact, so `astype(np.float16)` at
`add_table` leaves `emb9` unchanged. -/
theorem emb9_round : emb9.map roundF16 = emb9 := by
  simp only [emb9, List.map_cons, List.map_replicate]
  rw [show roundF16 3 = 3 from by decide, show roundF16 4 = 4 from by decide,
    show roundF16 0 = 0 from by decide]

theorem emb9_normSq : vecNormSq emb9 = 25 := by
  simp only [vecNormSq, emb9, List.map_cons, List.map_replicate, List.sum_cons]
  rw [show ((0 : ℚ) * 0) = 0 from by decide, List.sum_replicate]
  rw [show (766 • (0 : ℚ)) = 0 from by simp]
  decide

/-- The stored matrix row for `emb9`: normalise by the norm 5, then round
each entry to the float16 grid. -/
theorem store9_eq : storeNorm emb9 = stored9 := by
  unfold storeNorm normalizeRow
  rw [emb9_normSq]
  rw [show ratSqrt 25 = some 5 from by decide]
  dsimp only
  rw [if_neg (by norm_num : ¬ ((5 : ℚ) = 0))]
  simp only [emb9, stored9, List.map_cons, List.map_replicate]
  rw [show ((0 : ℚ) / 5) = 0 from by decide,
    show roundF16 ((3 : ℚ) / 5) = 1229 / 2048 from by decide,
    show roundF16 ((4 : ℚ) / 5) = 819 / 1024 from by decide,
    show roundF16 0 = 0 from by decide]

theorem chunk9_eq : addChunk tbl9 = [emb9] := by
  unfold addChunk tbl9
  simp [emb9_round]

/-- The merged state after adding `tbl9`: rows `[r9]`, matrix `[stored9]`. -/
theorem m9_eq : m9 = some { rows := [r9], embs := [stored9] } := by
  have h1 : addTable Database.empty tbl9
      = ⟨[[r9]], [[emb9]], none, none⟩ := by
    unfold addTable Database.empty invalidate
    rw [if_neg (by decide : ¬ (tbl9.rows.length = 0))]
    rw [chunk9_eq]
    simp [tbl9]
  unfold m9
  rw [chunk9_eq, h1]
  unfold ensureMergedWith mergedView
  simp [store9_eq]

theorem embX_round : embX.map roundF16 = embX := by
  simp only [embX, List.map_cons, List.map_replicate]
  rw [show roundF16 1 = 1 from by decide, show roundF16 0 = 0 from by decide]

theorem embX_normSq : vecNormSq embX = 1 := by
  simp only [vecNormSq, embX, List.map_cons, List.map_replicate, List.sum_cons]
  rw [show ((0 : ℚ) * 0) = 0 from by decide, List.sum_replicate]
  rw [show (767 • (0 : ℚ)) = 0 from by simp]
  decide

/-- `embX` is unit-norm and float16-exact: the store pipeline keeps it. -/
theorem embX_store : storeNorm embX = embX := by
  unfold storeNorm normalizeRow
  rw [embX_normSq]
  rw [show ratSqrt 1 = some 1 from by decide]
  dsimp only
  rw [if_neg (by norm_num : ¬ ((1 : ℚ) = 0))]
  simp only [embX, List.map_cons, List.map_replicate]
  rw [show ((0 : ℚ) / 1) = 0 from by decide,
    show ((1 : ℚ) / 1) = 1 from by decide,
    show roundF16 1 = 1 from by decide, show roundF16 0 = 0 from by decide]

theorem chunkX_eq : addChunk tblX = [embX] := by
  unfold addChunk tblX
  simp [embX_round]

theorem dbX_eq : dbX = ⟨[[rX]], [[embX]], some [rX], some [embX]⟩ := by
  have h1 : addTable Database.empty tblX
      = ⟨[[rX]], [[embX]], none, none⟩ := by
    unfold addTable Database.empty invalidate
    rw [if_neg (by decide : ¬ (tblX.rows.length = 0))]
    rw [chunkX_eq]
    simp [tblX]
  unfold dbX
  rw [chunkX_eq, h1]
  unfold ensureMergedWith
  simp [embX_store]

/-- After `compact()`, `add_table` of an EMPTY table returns early: nothing
is invalidated and the old merged state survives. -/
theorem dbXafter_eq : dbXafter = ⟨[], [], some [rX], some [embX]⟩ := by
  unfold dbXafter compact addTable
  rw [dbX_eq]
  rfl

/-- C9: `get_segment` hands back the row of the stored L2-normalised
half-precision matrix, not the embedding that was added: after `add_table`
of the segment `r9` with the non-unit-norm embedding `emb9` and a merge,
the stored matrix holds exactly `stored9 = storeNorm emb9`, `get_segment`
returns it as the `text_embedding`, and it differs from `emb9`. -/
theorem getSegment_returns_stored_embedding :
    (∀ (m : Merged) (sid : String) (r : Row) (e : Vec),
      getSegment (some m) sid = some (r, e) → e ∈ m.embs) ∧
    m9 = some { rows := [r9], embs := [stored9] } ∧
    getSegment m9 "v1_00000" = some (r9, stored9) ∧
    stored9 = storeNorm emb9 ∧ stored9 ≠ emb9 := by
  refine ⟨fun m sid r e h => (getSegment_mem_rows h).2, m9_eq, ?_, store9_eq.symm, ?_⟩
  · rw [m9_eq]
    rfl
  · intro h
    have h1 := congrArg (fun l => l.headD 0) h
    simp only [stored9, emb9, List.headD_cons] at h1
    norm_num at h1

/-- C10 counterexample: `add_table` of an EMPTY table returns before
invalidating anything, so after `_ensure_merged()`, `compact()` and
`add_table({})` the next merge still serves every previously loaded
segment: `get_segment` still returns the pre-compact row `rX`, although
the added table has no rows at all. -/
theorem addTable_empty_after_compact_keeps_old :
    dbXafter = addTable (compact dbX) { rows := [], embs := [] } ∧
    ({ rows := [], embs := [] } : Table).rows = [] ∧
    dbXafter.merged = some [rX] ∧
    getSegment (mergedView (ensureMergedWith dbXafter [])) "x_00000"
      = some (rX, embX) := by
  refine ⟨rfl, rfl, by rw [dbXafter_eq], ?_⟩
  rw [dbXafter_eq]
  rfl

/-- Witness: the amended C10 statement at the concrete non-empty table
`tblX` added to a compacted empty database. -/
theorem addTable_after_compact_resets_witness :
    dbW10.merged = none ∧ dbW10.membs = none ∧
    dbW10.tables = [tblX.rows] ∧ dbW10.chunks = [addChunk tblX] ∧
    (∀ paired2, paired2.Perm (dbW10.tables.zip dbW10.chunks) →
      mergedView (ensureMergedWith dbW10 paired2)
          = some ⟨tblX.rows, (addChunk tblX).map storeNorm⟩ ∧
      (∀ q n C p, p ∈ closest (mergedView (ensureMergedWith dbW10 paired2)) q n C →
        p.1 ∈ tblX.rows) ∧
      (∀ off lim C r,
        r ∈ listSegments (mergedView (ensureMergedWith dbW10 paired2)) off lim C →
        r ∈ tblX.rows) ∧
      (∀ sid r e,
        getSegment (mergedView (ensureMergedWith dbW10 paired2)) sid = some (r, e) →
        r ∈ tblX.rows) ∧
      (∀ vid r, r ∈ videoSegments (mergedView (ensureMergedWith dbW10 paired2)) vid →
        r ∈ tblX.rows) ∧
      (∀ C, countSegments (mergedView (ensureMergedWith dbW10 paired2)) C
          = (filterRows tblX.rows C).length)) :=
  addTable_after_compact_resets Database.empty [] tblX dbW10
    (List.Perm.refl _) (by decide) rfl

end

end RTT
